import Mathlib

/-!
Verification of `transport/ServiceManagement.cpp` (system/libhidl).

The C++ file implements four cooperating pieces:

* `defaultServiceManager` — a lazily initialized, retry-forever acquisition of
  the hwbinder registry handle (guarded by an accessibility probe of
  `/dev/hwbinder` and a cache `gDefaultServiceManager`);
* `search` — a directory scan returning the entries matching a prefix/suffix
  pair;
* `PassthroughServiceManager` — `get` resolves a fully-qualified interface
  name to a dynamically loaded library (roots ODM, vendor, system, in that
  order; first successful `dlopen` wins via a `goto` out of both loops), then
  looks up the `HIDL_FETCH_<name>` factory symbol; the registry-only
  operations `add`, `list`, `listByInterface`, `registerForNotifications` are
  `LOG(FATAL)`;
* `Waiter` / `waitForHwService` — a one-shot condition-variable waiter driven
  by the asynchronous `onRegistration` callback.

The embedding is pure: the filesystem, dynamic loader and transport are an
explicit environment (`Env`, `RegistryEnv`), the unbounded retry loop is
modelled with explicit fuel, and side effects that the claims talk about
(directory scans, load attempts, sleeps) are returned as explicit traces.
-/

set_option autoImplicit false
set_option linter.unusedVariables false

namespace ServiceManagement

/-- The validated-identifier view of `FQName` that `PassthroughServiceManager::get`
consumes: the predicates `isValid`, `isFullyQualified`, `isIdentifier` and the
accessors `getPackageAndVersion` and `name`. The parser itself is external to
this file (`hidl-util/FQName.h`). -/
structure FQName where
  isValid : Bool
  isFullyQualified : Bool
  isIdentifier : Bool
  packageAndVersion : String
  name : String
  deriving DecidableEq, Repr

/-- The external world seen by the passthrough resolver: `opendir`/`readdir`
(a directory is either unopenable or a list of entry names in iteration
order), `dlopen` (full path to handle), `dlsym` (handle and symbol name to
function pointer), and invocation of the fetched generator (instance name to
a nullable service pointer). Handles and pointers are opaque naturals. -/
structure Env where
  dirEntries : String → Option (List String)
  dlopen : String → Option Nat
  dlsym : Nat → String → Option Nat
  fetch : Nat → String → Option Nat
  odmPath : String
  vendorPath : String
  systemPath : String

/-- `StringHelper::StartsWith`: the first `prefix.size()` characters of `s`
equal the prefix. -/
def StringHelper.StartsWith (s pre : String) : Bool :=
  s.data.take pre.data.length == pre.data

/-- `StringHelper::EndsWith`: the last `suffix.size()` characters of `s`
equal the suffix. -/
def StringHelper.EndsWith (s suffix : String) : Bool :=
  s.data.drop (s.data.length - suffix.data.length) == suffix.data

/-- The `readdir` loop body of `search`: keep each entry whose name starts
with the prefix and ends with the suffix, in iteration order. -/
def readdirLoop (pre suffix : String) : List String → List String
  | [] => []
  | nm :: rest =>
    if StringHelper.StartsWith nm pre && StringHelper.EndsWith nm suffix then
      nm :: readdirLoop pre suffix rest
    else
      readdirLoop pre suffix rest

/-- `search(path, prefix, suffix)`: empty result if `opendir` fails, else the
matching entries in directory-iteration order. -/
def search (fs : String → Option (List String)) (path pre suffix : String) :
    List String :=
  match fs path with
  | none => []
  | some entries => readdirLoop pre suffix entries

/-- A filesystem-visible action of the resolver: opening a directory for a
scan, or attempting `dlopen` on a full path. -/
inductive FsOp where
  | scanDir : String → FsOp
  | loadLib : String → FsOp
  deriving DecidableEq, Repr

/-- The inner candidate loop of `PassthroughServiceManager::get`: try `dlopen`
on each library of one root in scan order; the first success carries its
handle and library name (the `goto beginLookup`). Also returns the trace of
load attempts made. -/
def tryLibsT (env : Env) (path : String) :
    List String → Option (Nat × String) × List FsOp
  | [] => (none, [])
  | lib :: rest =>
    match env.dlopen (path ++ lib) with
    | some h => (some (h, lib), [FsOp.loadLib (path ++ lib)])
    | none =>
      let r := tryLibsT env path rest
      (r.1, FsOp.loadLib (path ++ lib) :: r.2)

/-- The outer root loop of `PassthroughServiceManager::get`: for each root in
order, scan for candidates with the given prefix and suffix `".so"`, and try
them; a success in one root short-circuits all remaining roots. Also returns
the trace of scans and load attempts. -/
def tryRootsT (env : Env) (pre : String) :
    List String → Option (Nat × String) × List FsOp
  | [] => (none, [])
  | path :: rest =>
    let libs := search env.dirEntries path pre ".so"
    let r := tryLibsT env path libs
    match r.1 with
    | some res => (some res, FsOp.scanDir path :: r.2)
    | none =>
      let r2 := tryRootsT env pre rest
      (r2.1, FsOp.scanDir path :: (r.2 ++ r2.2))

/-- Result of `PassthroughServiceManager::get`: invalid-name rejection, no
library loaded anywhere, library loaded but factory symbol missing, or the
(possibly null) service produced by the factory. -/
inductive GetResult where
  | invalidName : GetResult
  | noImplementation : GetResult
  | missingSymbol : String → GetResult
  | service : Option Nat → GetResult
  deriving DecidableEq, Repr

/-- The code after the `beginLookup:` label: resolve
`"HIDL_FETCH_" + iface.name()` in the loaded library and, if present, invoke
the generator on the instance name. -/
def beginLookup (env : Env) (fqName : FQName) (name : String)
    (handle : Nat) (library : String) : GetResult :=
  match env.dlsym handle ("HIDL_FETCH_" ++ fqName.name) with
  | none => GetResult.missingSymbol library
  | some generator => GetResult.service (env.fetch generator name)

/-- `PassthroughServiceManager::get`: validate the name; on failure return
null with an empty filesystem trace. Otherwise iterate the roots ODM, vendor,
system with prefix `<package>@<version>-impl` and suffix `".so"`; if nothing
loads return null, else continue at `beginLookup` with the first loaded
library. The second component is the filesystem trace. -/
def PassthroughServiceManager.get (env : Env) (fqName : FQName)
    (name : String) : GetResult × List FsOp :=
  if !fqName.isValid || !fqName.isFullyQualified || fqName.isIdentifier then
    (GetResult.invalidName, [])
  else
    let pre := fqName.packageAndVersion ++ "-impl"
    let r := tryRootsT env pre [env.odmPath, env.vendorPath, env.systemPath]
    match r.1 with
    | none => (GetResult.noImplementation, r.2)
    | some (handle, library) => (beginLookup env fqName name handle library, r.2)

/-- The flattened, priority-ordered candidate list over all roots: each root
contributes its scan results, tagged with the root, roots in the given
order. -/
def candidateList (env : Env) (pre : String) : List String → List (String × String)
  | [] => []
  | path :: rest =>
    (search env.dirEntries path pre ".so").map (fun lib => (path, lib))
      ++ candidateList env pre rest

/-- The first loadable candidate of a flattened candidate list, with its
handle, root and library name. -/
def firstLoadable (env : Env) : List (String × String) → Option (Nat × String × String)
  | [] => none
  | (path, lib) :: rest =>
    match env.dlopen (path ++ lib) with
    | some h => some (h, path, lib)
    | none => firstLoadable env rest

/-- Outcome of one of the registry-only operations on the passthrough
manager: `fatal` is `LOG(FATAL)` (the process terminates; the `return`
after it is dead code), `value` is an ordinary reply to the caller. -/
inductive OpResult (α : Type) where
  | fatal : String → OpResult α
  | value : α → OpResult α
  deriving DecidableEq, Repr

/-- Whether an operation outcome is the process-terminating `LOG(FATAL)`. -/
def OpResult.isFatal {α : Type} : OpResult α → Bool
  | OpResult.fatal _ => true
  | OpResult.value _ => false

/-- `PassthroughServiceManager::add`: unconditionally `LOG(FATAL)`. -/
def PassthroughServiceManager.add (interfaceChain : List String)
    (name : String) (service : Option Nat) : OpResult Bool :=
  OpResult.fatal "Cannot register services with passthrough service manager."

/-- `PassthroughServiceManager::list`: unconditionally `LOG(FATAL)`. -/
def PassthroughServiceManager.list : OpResult Unit :=
  OpResult.fatal "Cannot list services with passthrough service manager."

/-- `PassthroughServiceManager::listByInterface`: unconditionally `LOG(FATAL)`. -/
def PassthroughServiceManager.listByInterface (fqInstanceName : String) :
    OpResult Unit :=
  OpResult.fatal "Cannot list services with passthrough service manager."

/-- `PassthroughServiceManager::registerForNotifications`: unconditionally
`LOG(FATAL)`. -/
def PassthroughServiceManager.registerForNotifications (fqName name : String)
    (callback : Option Nat) : OpResult Bool :=
  OpResult.fatal "Cannot register for notifications with passthrough service manager."

/-- The external world seen by `defaultServiceManager`: whether
`access("/dev/hwbinder", F_OK|R_OK|W_OK)` succeeds, and the result of the
k-th `fromBinder(ProcessState::self()->getContextObject(NULL))` attempt
(`none` models a null handle). -/
structure RegistryEnv where
  hwbinderAccessible : Bool
  attempts : Nat → Option Nat

/-- Observable outcome of `defaultServiceManager`: the handle returned (or
`none` while the loop has not produced one within the given fuel), the number
of `getContextObject` lookup attempts performed, and the number of one-second
sleeps executed. -/
structure RegistryOutcome where
  handle : Option Nat
  lookupAttempts : Nat
  sleeps : Nat
  deriving DecidableEq, Repr

/-- The `while (gDefaultServiceManager == NULL)` loop, with fuel: try the
attempt at the current index; on null, sleep one second and retry. Fuel 0
means the loop is still running (the C++ loop is unbounded). -/
def retryLoop (attempts : Nat → Option Nat) : Nat → Nat → RegistryOutcome
  | _, 0 => ⟨none, 0, 0⟩
  | i, fuel + 1 =>
    match attempts i with
    | some h => ⟨some h, 1, 0⟩
    | none =>
      let r := retryLoop attempts (i + 1) fuel
      ⟨r.handle, r.lookupAttempts + 1, r.sleeps + 1⟩

/-- `defaultServiceManager`: return the cached handle if present; else, if
`/dev/hwbinder` is not accessible, return null immediately; else run the
retry loop under the mutex. -/
def defaultServiceManager (env : RegistryEnv) (cached : Option Nat)
    (fuel : Nat) : RegistryOutcome :=
  match cached with
  | some h => ⟨some h, 0, 0⟩
  | none =>
    if env.hwbinderAccessible then retryLoop env.attempts 0 fuel
    else ⟨none, 0, 0⟩

/-- The waiter's mutex-protected state: the `mRegistered` flag. -/
structure WaiterState where
  mRegistered : Bool
  deriving DecidableEq, Repr

/-- A freshly constructed `Waiter`: `mRegistered = false`. -/
def Waiter.initial : WaiterState := ⟨false⟩

/-- `Waiter::onRegistration(fqName, name, preexisting)`: if already
registered, return leaving the state alone; otherwise set `mRegistered` and
signal the condition variable. The Boolean of the result records whether
`notify_one` was called. All three arguments are unused in the source. -/
def Waiter.onRegistration (s : WaiterState) (fqName name : String)
    (preexisting : Bool) : WaiterState × Bool :=
  if s.mRegistered then (s, false)
  else (⟨true⟩, true)

/-- Run a sequence of `onRegistration` callbacks against a waiter state. -/
def Waiter.runCallbacks (s : WaiterState) :
    List (String × String × Bool) → WaiterState
  | [] => s
  | (a, b, c) :: rest => Waiter.runCallbacks (Waiter.onRegistration s a b c).1 rest

/-- `Waiter::wait` blocks on `mCondition.wait(lock, [this]{ return mRegistered; })`:
given the stream of callbacks delivered to the waiter, the wait returns
exactly when the state machine has reached `mRegistered = true`. -/
def Waiter.waitTerminates (events : List (String × String × Bool)) : Bool :=
  (Waiter.runCallbacks Waiter.initial events).mRegistered

/-- The `Return<bool>` of `registerForNotifications` as seen by
`waitForHwService`: either a transport-level failure (`!ret.isOk()`, with its
description) or a logical Boolean reply. -/
inductive RetBool where
  | transportError : String → RetBool
  | ok : Bool → RetBool
  deriving DecidableEq, Repr

/-- How `waitForHwService` returns: an immediate error return (no manager,
transport failure, or logical registration failure), or the blocking
`waiter->wait()` call that returns once the waiter is registered. -/
inductive WaitOutcome where
  | errorNoManager : WaitOutcome
  | errorTransport : WaitOutcome
  | errorRegistration : WaitOutcome
  | blockedThenReturn : WaitOutcome
  deriving DecidableEq, Repr

/-- `waitForHwService(interface, instanceName)`: get the default service
manager (`manager`); on null, error return. Register a fresh waiter; on
transport error or `false` reply, error return. Otherwise block in
`waiter->wait()`. -/
def waitForHwService (interface instanceName : String) (manager : Option Nat)
    (registerResult : RetBool) : WaitOutcome :=
  match manager with
  | none => WaitOutcome.errorNoManager
  | some m =>
    match registerResult with
    | RetBool.transportError d => WaitOutcome.errorTransport
    | RetBool.ok false => WaitOutcome.errorRegistration
    | RetBool.ok true => WaitOutcome.blockedThenReturn

/-- Demonstration environment: ODM has an unloadable and a loadable
candidate (plus a non-matching entry), vendor has a loadable candidate,
system is empty; the loaded ODM library exposes `HIDL_FETCH_IFoo` only. -/
def demoEnv : Env where
  dirEntries p :=
    if p = "/odm/" then some ["foo@1.0-impl-b.so", "x.txt", "foo@1.0-impl-g.so"]
    else if p = "/vendor/" then some ["foo@1.0-impl.so"]
    else if p = "/system/" then some []
    else none
  dlopen p :=
    if p = "/odm/foo@1.0-impl-g.so" then some 7
    else if p = "/vendor/foo@1.0-impl.so" then some 8
    else none
  dlsym h s := if h = 7 && s = "HIDL_FETCH_IFoo" then some 21 else none
  fetch g inst := some (g + inst.length)
  odmPath := "/odm/"
  vendorPath := "/vendor/"
  systemPath := "/system/"

/-- A valid, fully-qualified interface name for the demonstrations. -/
def demoFq : FQName := ⟨true, true, false, "foo@1.0", "IFoo"⟩

/-- A valid, fully-qualified interface name whose factory symbol
`HIDL_FETCH_IBar` no demonstration library exports. -/
def demoFqBar : FQName := ⟨true, true, false, "foo@1.0", "IBar"⟩

/-! Helper lemmas. -/

/-- The `readdir` loop keeps exactly the matching entries, in order. -/
theorem readdirLoop_eq_filter (pre suffix : String) (l : List String) :
    readdirLoop pre suffix l =
      l.filter (fun nm =>
        StringHelper.StartsWith nm pre && StringHelper.EndsWith nm suffix) := by
  induction l with
  | nil => rfl
  | cons nm rest ih =>
    by_cases h : (StringHelper.StartsWith nm pre && StringHelper.EndsWith nm suffix) = true
    · simp [readdirLoop, h, ih, List.filter_cons]
    · simp [readdirLoop, h, ih, List.filter_cons]

/-- `StringHelper::StartsWith` decides the prefix property. -/
theorem StartsWith_iff (s p : String) :
    StringHelper.StartsWith s p = true ↔ ∃ t, s.data = p.data ++ t := by
  unfold StringHelper.StartsWith
  rw [beq_iff_eq]
  constructor
  · intro h
    refine ⟨s.data.drop p.data.length, ?_⟩
    conv_lhs => rw [← List.take_append_drop p.data.length s.data]
    rw [h]
  · rintro ⟨t, ht⟩
    rw [ht, List.take_left]

/-- `StringHelper::EndsWith` decides the suffix property. -/
theorem EndsWith_iff (s p : String) :
    StringHelper.EndsWith s p = true ↔ ∃ t, s.data = t ++ p.data := by
  unfold StringHelper.EndsWith
  rw [beq_iff_eq]
  constructor
  · intro h
    refine ⟨s.data.take (s.data.length - p.data.length), ?_⟩
    conv_lhs => rw [← List.take_append_drop (s.data.length - p.data.length) s.data]
    rw [h]
  · rintro ⟨t, ht⟩
    rw [ht]
    have hlen : (t ++ p.data).length - p.data.length = t.length := by
      simp [List.length_append]
    rw [hlen, List.drop_left]

/-- Once registered, a waiter absorbs any further callbacks unchanged. -/
theorem runCallbacks_registered (events : List (String × String × Bool)) :
    Waiter.runCallbacks ⟨true⟩ events = ⟨true⟩ := by
  induction events with
  | nil => rfl
  | cons e rest ih =>
    obtain ⟨a, b, c⟩ := e
    simpa [Waiter.runCallbacks, Waiter.onRegistration] using ih

/-! Claim theorems. -/

/-- Claim C9: `search` returns an empty sequence — never an error — when the
directory cannot be opened; otherwise it returns exactly the entries whose
name starts with the prefix and ends with the suffix, in directory-iteration
order; and it inspects only the named directory itself (two filesystems that
agree on this directory give the same result: no recursion into
subdirectories). -/
theorem search_scan_spec (fs fs' : String → Option (List String))
    (path pre suffix : String) :
    (fs path = none → search fs path pre suffix = []) ∧
    (∀ entries, fs path = some entries →
      search fs path pre suffix =
        entries.filter (fun nm =>
          StringHelper.StartsWith nm pre && StringHelper.EndsWith nm suffix)) ∧
    (∀ s p : String, StringHelper.StartsWith s p = true ↔ ∃ t, s.data = p.data ++ t) ∧
    (∀ s p : String, StringHelper.EndsWith s p = true ↔ ∃ t, s.data = t ++ p.data) ∧
    (fs path = fs' path → search fs path pre suffix = search fs' path pre suffix) := by
  refine ⟨fun h => ?_, fun entries h => ?_, StartsWith_iff, EndsWith_iff, fun h => ?_⟩
  · simp [search, h]
  · simp [search, h, readdirLoop_eq_filter]
  · simp [search, h]

/-- Claim C9 witness: a concrete directory scan keeping the two matching
entries in iteration order, and a concrete unopenable directory. -/
theorem search_scan_spec_witness :
    search (fun p => if p = "/odm/" then
        some ["foo@1.0-impl-b.so", "x.txt", "foo@1.0-impl-g.so"] else none)
      "/odm/" "foo@1.0-impl" ".so" = ["foo@1.0-impl-b.so", "foo@1.0-impl-g.so"] ∧
    search (fun p => if p = "/odm/" then
        some ["foo@1.0-impl-b.so", "x.txt", "foo@1.0-impl-g.so"] else none)
      "/vendor/" "foo@1.0-impl" ".so" = [] :=
  ⟨Eq.trans
    ((search_scan_spec
        (fun p => if p = "/odm/" then
          some ["foo@1.0-impl-b.so", "x.txt", "foo@1.0-impl-g.so"] else none)
        (fun _ => none) "/odm/" "foo@1.0-impl" ".so").2.1
      ["foo@1.0-impl-b.so", "x.txt", "foo@1.0-impl-g.so"] (by decide))
    (by decide),
   (search_scan_spec
      (fun p => if p = "/odm/" then
        some ["foo@1.0-impl-b.so", "x.txt", "foo@1.0-impl-g.so"] else none)
      (fun _ => none) "/vendor/" "foo@1.0-impl" ".so").1 (by decide)⟩

/-- Claim C6: an invalid, under-qualified, or identifier-only name makes
`PassthroughServiceManager::get` return null with an error and an empty
filesystem trace — no directory scan and no load attempt, for every
environment. -/
theorem passthrough_invalid_name_no_fs (env : Env) (fq : FQName) (nm : String)
    (h : fq.isValid = false ∨ fq.isFullyQualified = false ∨ fq.isIdentifier = true) :
    PassthroughServiceManager.get env fq nm = (GetResult.invalidName, []) := by
  unfold PassthroughServiceManager.get
  rcases h with h | h | h <;> simp [h]

/-- Claim C6 witness: a concrete invalid name against the concrete
environment; no filesystem operation appears in the trace. -/
theorem passthrough_invalid_name_no_fs_witness :
    PassthroughServiceManager.get demoEnv ⟨false, true, false, "foo@1.0", "IFoo"⟩
      "default" = (GetResult.invalidName, []) :=
  passthrough_invalid_name_no_fs demoEnv ⟨false, true, false, "foo@1.0", "IFoo"⟩
    "default" (Or.inl rfl)

/-- Claim C2 counterexample: `add` on the passthrough manager at a concrete
input is `LOG(FATAL)` — the process terminates; the condition is not
surfaced as a reportable (non-fatal) error result, contrary to the claim. -/
theorem passthrough_add_fatal_not_reportable :
    ¬ (PassthroughServiceManager.add [] "default" none).isFatal = false := by
  decide

/-- Claim C2 (amended): every registry-only operation on the passthrough
manager — `add`, `list`, `listByInterface`, `registerForNotifications` — is
process-fatal (`LOG(FATAL)`) rather than returning a reportable error result
to the caller. -/
theorem passthrough_registry_ops_fatal (chain : List String)
    (nm fqn inst : String) (svc cb : Option Nat) :
    (PassthroughServiceManager.add chain nm svc).isFatal = true ∧
    PassthroughServiceManager.list.isFatal = true ∧
    (PassthroughServiceManager.listByInterface inst).isFatal = true ∧
    (PassthroughServiceManager.registerForNotifications fqn nm cb).isFatal = true :=
  ⟨rfl, rfl, rfl, rfl⟩

/-- Claim C8: with no cached handle and the `/dev/hwbinder` accessibility
probe failing, `defaultServiceManager` returns null immediately: zero lookup
attempts and zero sleeps, regardless of what the transport would have
answered. -/
theorem registry_unavailable_immediate_absent (attempts : Nat → Option Nat)
    (fuel : Nat) :
    defaultServiceManager ⟨false, attempts⟩ none fuel = ⟨none, 0, 0⟩ := rfl

/-- Claim C7: the waiter transition `Unregistered → Registered` fires exactly
once, on the first `onRegistration` callback (which also signals); every
later callback leaves the state unchanged and does not signal; and no
operation ever resets a registered waiter, over any further callback
sequence. -/
theorem waiter_transition_exactly_once (s : WaiterState) (a b : String)
    (c : Bool) (events : List (String × String × Bool)) :
    (s.mRegistered = false → Waiter.onRegistration s a b c = (⟨true⟩, true)) ∧
    (s.mRegistered = true → Waiter.onRegistration s a b c = (s, false)) ∧
    Waiter.runCallbacks ⟨true⟩ events = ⟨true⟩ := by
  refine ⟨fun h => ?_, fun h => ?_, runCallbacks_registered events⟩
  · simp [Waiter.onRegistration, h]
  · simp [Waiter.onRegistration, h]

/-- Claim C7 witness: the first callback on a fresh waiter transitions and
signals; the same callback on a registered waiter is ignored and silent. -/
theorem waiter_transition_exactly_once_witness :
    Waiter.onRegistration ⟨false⟩ "foo@1.0::IFoo" "default" false = (⟨true⟩, true) ∧
    Waiter.onRegistration ⟨true⟩ "foo@1.0::IFoo" "default" false = (⟨true⟩, false) :=
  ⟨(waiter_transition_exactly_once ⟨false⟩ "foo@1.0::IFoo" "default" false []).1 rfl,
   (waiter_transition_exactly_once ⟨true⟩ "foo@1.0::IFoo" "default" false []).2.1 rfl⟩

/-- Claim C10: `Waiter::onRegistration` ignores all three of its arguments —
any two invocations from the same state agree — and the first callback on a
fresh waiter transitions, signals, and unblocks the wait no matter which
(interface, instance) pair the notification reports. -/
theorem waiter_ignores_callback_args (s : WaiterState) (a a' b b' : String)
    (c c' : Bool) :
    Waiter.onRegistration s a b c = Waiter.onRegistration s a' b' c' ∧
    Waiter.onRegistration Waiter.initial a b c = (⟨true⟩, true) ∧
    Waiter.waitTerminates [(a, b, c)] = true :=
  ⟨rfl, rfl, rfl⟩

/-- Claim C3: `waitForHwService` returns immediately (without blocking) when
the registry handle is absent, when the registration call fails at the
transport level, and when it returns logical false; when registration
succeeds it enters the blocking `waiter->wait()`, which returns exactly when
the waiter's state machine has reached `Registered` — that is, once at least
one registration callback has been delivered. -/
theorem waitForHwService_blocking_spec (itf inst d : String) (m : Nat)
    (r : RetBool) (events : List (String × String × Bool)) :
    waitForHwService itf inst none r = WaitOutcome.errorNoManager ∧
    waitForHwService itf inst (some m) (RetBool.transportError d) =
      WaitOutcome.errorTransport ∧
    waitForHwService itf inst (some m) (RetBool.ok false) =
      WaitOutcome.errorRegistration ∧
    waitForHwService itf inst (some m) (RetBool.ok true) =
      WaitOutcome.blockedThenReturn ∧
    (Waiter.waitTerminates events = true ↔ events ≠ []) := by
  refine ⟨rfl, rfl, rfl, rfl, ?_⟩
  cases events with
  | nil => simp [Waiter.waitTerminates, Waiter.runCallbacks, Waiter.initial]
  | cons e rest =>
    obtain ⟨a, b, c⟩ := e
    simp [Waiter.waitTerminates, Waiter.runCallbacks, Waiter.onRegistration,
      Waiter.initial, runCallbacks_registered]

/-- The inner candidate loop returns the first loadable candidate of one
root, as `firstLoadable` does on the root-tagged candidate list. -/
theorem tryLibsT_fst (env : Env) (path : String) (libs : List String) :
    (tryLibsT env path libs).1 =
      Option.map (fun r => (r.1, r.2.2))
        (firstLoadable env (libs.map (fun lib => (path, lib)))) := by
  induction libs with
  | nil => rfl
  | cons lib rest ih =>
    simp only [tryLibsT, List.map_cons, firstLoadable]
    cases h : env.dlopen (path ++ lib) with
    | some hdl => simp [h]
    | none => simp [h, ih]

/-- `firstLoadable` scans a concatenation left to right. -/
theorem firstLoadable_append (env : Env) (l1 l2 : List (String × String)) :
    firstLoadable env (l1 ++ l2) =
      match firstLoadable env l1 with
      | some r => some r
      | none => firstLoadable env l2 := by
  induction l1 with
  | nil => rfl
  | cons c rest ih =>
    obtain ⟨path, lib⟩ := c
    simp only [List.cons_append, firstLoadable]
    cases h : env.dlopen (path ++ lib) with
    | some hdl => simp [h]
    | none => simp [h, ih]

/-- The nested root/candidate loops of `get` compute exactly the first
loadable candidate of the flattened, priority-ordered candidate list. -/
theorem tryRootsT_fst (env : Env) (pre : String) (roots : List String) :
    (tryRootsT env pre roots).1 =
      Option.map (fun r => (r.1, r.2.2))
        (firstLoadable env (candidateList env pre roots)) := by
  induction roots with
  | nil => rfl
  | cons path rest ih =>
    have hlib := tryLibsT_fst env path (search env.dirEntries path pre ".so")
    simp only [tryRootsT, candidateList, firstLoadable_append]
    cases h : firstLoadable env
        ((search env.dirEntries path pre ".so").map (fun lib => (path, lib))) with
    | some r =>
      rw [h] at hlib
      simp [hlib]
    | none =>
      rw [h] at hlib
      simp [hlib, ih]

/-- When the candidate list splits as unloadable candidates, then a loadable
one, the inner loop stops at the loadable one, having attempted exactly the
candidates before it. -/
theorem tryLibsT_shape (env : Env) (path : String) (l1 l2 : List String)
    (lib : String) (hdl : Nat)
    (hfail : ∀ x ∈ l1, env.dlopen (path ++ x) = none)
    (hload : env.dlopen (path ++ lib) = some hdl) :
    tryLibsT env path (l1 ++ lib :: l2) =
      (some (hdl, lib),
        l1.map (fun x => FsOp.loadLib (path ++ x)) ++
          [FsOp.loadLib (path ++ lib)]) := by
  induction l1 with
  | nil => simp [tryLibsT, hload]
  | cons x rest ih =>
    have hx : env.dlopen (path ++ x) = none := hfail x (by simp)
    have ih' := ih (fun y hy => hfail y (by simp [hy]))
    simp [tryLibsT, hx, ih']

/-- A successful inner loop loaded its reported library, and the load is the
last operation of the inner trace. -/
theorem tryLibsT_success (env : Env) (path : String) (libs : List String)
    (hdl : Nat) (lib : String)
    (h : (tryLibsT env path libs).1 = some (hdl, lib)) :
    env.dlopen (path ++ lib) = some hdl ∧
    ∃ t0, (tryLibsT env path libs).2 = t0 ++ [FsOp.loadLib (path ++ lib)] := by
  induction libs with
  | nil => simp [tryLibsT] at h
  | cons x rest ih =>
    cases hx : env.dlopen (path ++ x) with
    | some h2 =>
      simp only [tryLibsT, hx] at h ⊢
      obtain ⟨h1, h3⟩ := Prod.mk.injEq .. ▸ Option.some.inj h
      subst h3
      refine ⟨by rw [hx, h1], ⟨[], rfl⟩⟩
    | none =>
      simp only [tryLibsT, hx] at h ⊢
      obtain ⟨hd, t0, ht⟩ := ih h
      exact ⟨hd, FsOp.loadLib (path ++ x) :: t0, by simp [ht]⟩

/-- A successful root loop loaded its reported library from one of the
roots, and that load is the last operation of the whole trace: nothing is
attempted after the first successful load. -/
theorem tryRootsT_success (env : Env) (pre : String) (roots : List String)
    (hdl : Nat) (lib : String)
    (h : (tryRootsT env pre roots).1 = some (hdl, lib)) :
    ∃ path, path ∈ roots ∧ env.dlopen (path ++ lib) = some hdl ∧
      ∃ t0, (tryRootsT env pre roots).2 = t0 ++ [FsOp.loadLib (path ++ lib)] := by
  induction roots with
  | nil => simp [tryRootsT] at h
  | cons path rest ih =>
    cases hx : (tryLibsT env path (search env.dirEntries path pre ".so")).1 with
    | some res =>
      simp only [tryRootsT, hx] at h ⊢
      obtain rfl : res = (hdl, lib) := Option.some.inj h
      obtain ⟨hd, t0, ht⟩ :=
        tryLibsT_success env path (search env.dirEntries path pre ".so") hdl lib hx
      exact ⟨path, by simp, hd, FsOp.scanDir path :: t0, by simp [ht]⟩
    | none =>
      simp only [tryRootsT, hx] at h ⊢
      obtain ⟨path', hmem, hd, t0, ht⟩ := ih h
      refine ⟨path', by simp [hmem], hd,
        FsOp.scanDir path ::
          ((tryLibsT env path (search env.dirEntries path pre ".so")).2 ++ t0),
        ?_⟩
      simp [ht]

/-- Claim C1: passthrough resolution searches the roots in priority order
(here the ODM, vendor, system root list of `get`), trying candidates in scan
order, and the first successful load commits: in general the loop computes
the first loadable candidate of the root-major flattened candidate list,
and concretely, when the first root holds unloadable candidates followed by
a loadable one, resolution proceeds with that library and the filesystem
trace shows only the first root's scan and its load attempts — lower-priority
roots are never scanned. -/
theorem passthrough_priority_first_loadable (env : Env) (pre nm : String)
    (roots : List String) (fq : FQName) (l1 l2 : List String) (lib : String)
    (hdl : Nat)
    (hv : fq.isValid = true) (hf : fq.isFullyQualified = true)
    (hi : fq.isIdentifier = false)
    (hscan : search env.dirEntries env.odmPath
        (fq.packageAndVersion ++ "-impl") ".so" = l1 ++ lib :: l2)
    (hfail : ∀ x ∈ l1, env.dlopen (env.odmPath ++ x) = none)
    (hload : env.dlopen (env.odmPath ++ lib) = some hdl) :
    ((tryRootsT env pre roots).1 =
      Option.map (fun r => (r.1, r.2.2))
        (firstLoadable env (candidateList env pre roots))) ∧
    PassthroughServiceManager.get env fq nm =
      (beginLookup env fq nm hdl lib,
        FsOp.scanDir env.odmPath ::
          (l1.map (fun x => FsOp.loadLib (env.odmPath ++ x)) ++
            [FsOp.loadLib (env.odmPath ++ lib)])) := by
  refine ⟨tryRootsT_fst env pre roots, ?_⟩
  have hlib := tryLibsT_shape env env.odmPath l1 l2 lib hdl hfail hload
  rw [← hscan] at hlib
  simp [PassthroughServiceManager.get, hv, hf, hi, tryRootsT, hlib]

/-- Claim C1 witness: in the concrete environment, ODM holds an unloadable
candidate followed by a loadable one and vendor also holds a loadable
candidate; resolution succeeds via the loadable ODM library (factory symbol
present, service 28 produced) and the trace shows only the ODM scan and its
two load attempts. -/
theorem passthrough_priority_first_loadable_witness :
    PassthroughServiceManager.get demoEnv demoFq "default" =
      (GetResult.service (some 28),
        [FsOp.scanDir "/odm/", FsOp.loadLib "/odm/foo@1.0-impl-b.so",
          FsOp.loadLib "/odm/foo@1.0-impl-g.so"]) :=
  Eq.trans
    ((passthrough_priority_first_loadable demoEnv "foo@1.0-impl" "default"
        [demoEnv.odmPath, demoEnv.vendorPath, demoEnv.systemPath] demoFq
        ["foo@1.0-impl-b.so"] [] "foo@1.0-impl-g.so" 7 rfl rfl rfl
        (by decide) (by decide) (by decide)).2)
    (by decide)

/-- Claim C5: when some candidate library loads but the loaded library lacks
the `"HIDL_FETCH_" + <interface-name>` symbol, `get` reports the error and
returns absent (`missingSymbol`), and the successful load is the last
filesystem operation of the resolution — no further candidate in any root is
attempted after the successful load. -/
theorem passthrough_missing_symbol_aborts (env : Env) (fq : FQName)
    (nm : String) (hdl : Nat) (lib : String)
    (hv : fq.isValid = true) (hf : fq.isFullyQualified = true)
    (hi : fq.isIdentifier = false)
    (hfound : (tryRootsT env (fq.packageAndVersion ++ "-impl")
        [env.odmPath, env.vendorPath, env.systemPath]).1 = some (hdl, lib))
    (hsym : env.dlsym hdl ("HIDL_FETCH_" ++ fq.name) = none) :
    (PassthroughServiceManager.get env fq nm).1 = GetResult.missingSymbol lib ∧
    ∃ path, path ∈ [env.odmPath, env.vendorPath, env.systemPath] ∧
      env.dlopen (path ++ lib) = some hdl ∧
      ∃ t0, (PassthroughServiceManager.get env fq nm).2 =
        t0 ++ [FsOp.loadLib (path ++ lib)] := by
  have hget : PassthroughServiceManager.get env fq nm =
      (GetResult.missingSymbol lib,
        (tryRootsT env (fq.packageAndVersion ++ "-impl")
          [env.odmPath, env.vendorPath, env.systemPath]).2) := by
    simp [PassthroughServiceManager.get, hv, hf, hi, hfound, beginLookup, hsym]
  obtain ⟨path, hmem, hd, t0, ht⟩ :=
    tryRootsT_success env (fq.packageAndVersion ++ "-impl")
      [env.odmPath, env.vendorPath, env.systemPath] hdl lib hfound
  exact ⟨by rw [hget], path, hmem, hd, t0, by rw [hget]; exact ht⟩

/-- Claim C5 witness: looking up `IBar` in the concrete environment loads
the ODM library (handle 7) but finds no `HIDL_FETCH_IBar`; the result is
`missingSymbol` and the successful load ends the trace. -/
theorem passthrough_missing_symbol_aborts_witness :
    (PassthroughServiceManager.get demoEnv demoFqBar "default").1 =
      GetResult.missingSymbol "foo@1.0-impl-g.so" ∧
    ∃ path, path ∈ [demoEnv.odmPath, demoEnv.vendorPath, demoEnv.systemPath] ∧
      demoEnv.dlopen (path ++ "foo@1.0-impl-g.so") = some 7 ∧
      ∃ t0, (PassthroughServiceManager.get demoEnv demoFqBar "default").2 =
        t0 ++ [FsOp.loadLib (path ++ "foo@1.0-impl-g.so")] :=
  passthrough_missing_symbol_aborts demoEnv demoFqBar "default" 7
    "foo@1.0-impl-g.so" rfl rfl rfl (by decide) (by decide)

/-- If the loop has produced no handle within its fuel, every attempt it
made came back null. -/
theorem retryLoop_none (attempts : Nat → Option Nat) (fuel i : Nat)
    (h : (retryLoop attempts i fuel).handle = none) :
    ∀ j, j < fuel → attempts (i + j) = none := by
  induction fuel generalizing i with
  | zero => intro j hj; omega
  | succ f ih =>
    intro j hj
    cases hx : attempts i with
    | some hd => simp [retryLoop, hx] at h
    | none =>
      simp only [retryLoop, hx] at h
      cases j with
      | zero => simpa using hx
      | succ j' =>
        have := ih (i + 1) h j' (by omega)
        simpa [Nat.add_assoc, Nat.add_comm 1 j'] using this

/-- Any handle the loop returns came out of some successful attempt. -/
theorem retryLoop_some (attempts : Nat → Option Nat) (fuel i : Nat)
    (hdl : Nat) (h : (retryLoop attempts i fuel).handle = some hdl) :
    ∃ j, attempts (i + j) = some hdl := by
  induction fuel generalizing i with
  | zero => simp [retryLoop] at h
  | succ f ih =>
    cases hx : attempts i with
    | some hd =>
      simp only [retryLoop, hx] at h
      exact ⟨0, by simpa [hx] using h⟩
    | none =>
      simp only [retryLoop, hx] at h
      obtain ⟨j, hj⟩ := ih (i + 1) h
      exact ⟨j + 1, by simpa [Nat.add_assoc, Nat.add_comm 1 j] using hj⟩

/-- A successful attempt within the fuel makes the loop return a handle. -/
theorem retryLoop_reaches (attempts : Nat → Option Nat) (fuel i j : Nat)
    (hdl : Nat) (hj : attempts (i + j) = some hdl) (hlt : j < fuel) :
    ((retryLoop attempts i fuel).handle).isSome = true := by
  induction fuel generalizing i j with
  | zero => omega
  | succ f ih =>
    cases hx : attempts i with
    | some hd => simp [retryLoop, hx]
    | none =>
      cases j with
      | zero => rw [Nat.add_zero] at hj; rw [hj] at hx; cases hx
      | succ j' =>
        have := ih (i + 1) j' (by simpa [Nat.add_assoc, Nat.add_comm 1 j'] using hj)
          (by omega)
        simpa [retryLoop, hx] using this

/-- With the first success at attempt `k` within the fuel, the loop returns
that handle after exactly `k + 1` lookups and `k` one-second sleeps. -/
theorem retryLoop_first_success (attempts : Nat → Option Nat) (k : Nat)
    (hdl : Nat) :
    ∀ fuel i, (∀ j, j < k → attempts (i + j) = none) →
      attempts (i + k) = some hdl → k < fuel →
      retryLoop attempts i fuel = ⟨some hdl, k + 1, k⟩ := by
  induction k with
  | zero =>
    intro fuel i hfail hk hlt
    cases fuel with
    | zero => omega
    | succ f =>
      have hk' : attempts i = some hdl := by simpa using hk
      simp [retryLoop, hk']
  | succ k' ih =>
    intro fuel i hfail hk hlt
    cases fuel with
    | zero => omega
    | succ f =>
      have h0 : attempts i = none := by simpa using hfail 0 (by omega)
      have hr : retryLoop attempts (i + 1) f = ⟨some hdl, k' + 1, k'⟩ := by
        refine ih f (i + 1) (fun j hj => ?_) ?_ (by omega)
        · simpa [Nat.add_assoc, Nat.add_comm 1 j] using hfail (j + 1) (by omega)
        · simpa [Nat.add_assoc, Nat.add_comm 1 k'] using hk
      simp [retryLoop, h0, hr]

/-- Claim C4: with the accessibility probe passing and no cached handle,
`defaultServiceManager` retries the root-object lookup with a one-second
sleep after each failed attempt and no upper bound: it produces a handle
(within some fuel) exactly when some attempt eventually succeeds; while it
has produced none, every attempt made so far returned null (it never returns
an absent handle from this path); and with the first success at attempt `k`
it returns that handle after `k + 1` lookups and `k` sleeps. -/
theorem registry_retry_until_success (env : RegistryEnv)
    (hacc : env.hwbinderAccessible = true) :
    ((∃ fuel, ((defaultServiceManager env none fuel).handle).isSome = true) ↔
      (∃ k, ((env.attempts k).isSome = true))) ∧
    (∀ fuel, (defaultServiceManager env none fuel).handle = none →
      ∀ k, k < fuel → env.attempts k = none) ∧
    (∀ k hdl fuel, (∀ j, j < k → env.attempts j = none) →
      env.attempts k = some hdl → k < fuel →
      defaultServiceManager env none fuel = ⟨some hdl, k + 1, k⟩) := by
  have hdsm : ∀ fuel, defaultServiceManager env none fuel =
      retryLoop env.attempts 0 fuel := by
    intro fuel
    simp [defaultServiceManager, hacc]
  refine ⟨⟨?_, ?_⟩, ?_, ?_⟩
  · rintro ⟨fuel, hf⟩
    rw [hdsm] at hf
    obtain ⟨hdl, hh⟩ := Option.isSome_iff_exists.mp hf
    obtain ⟨j, hj⟩ := retryLoop_some env.attempts fuel 0 hdl hh
    rw [Nat.zero_add] at hj
    exact ⟨j, by simp [hj]⟩
  · rintro ⟨k, hk⟩
    obtain ⟨hdl, hh⟩ := Option.isSome_iff_exists.mp hk
    refine ⟨k + 1, ?_⟩
    rw [hdsm]
    exact retryLoop_reaches env.attempts (k + 1) 0 k hdl (by simpa using hh)
      (by omega)
  · intro fuel hf k hk
    rw [hdsm] at hf
    simpa using retryLoop_none env.attempts fuel 0 hf k hk
  · intro k hdl fuel hfail hk hlt
    rw [hdsm]
    exact retryLoop_first_success env.attempts k hdl fuel 0
      (fun j hj => by simpa using hfail j hj) (by simpa using hk) hlt

/-- Claim C4 witness: with attempts failing at indices 0 and 1 and
succeeding at index 2, the manager is obtained after three lookups and two
sleeps. -/
theorem registry_retry_until_success_witness :
    defaultServiceManager ⟨true, fun k => if k = 2 then some 5 else none⟩
      none 4 = ⟨some 5, 3, 2⟩ :=
  (registry_retry_until_success
      ⟨true, fun k => if k = 2 then some 5 else none⟩ rfl).2.2 2 5 4
    (fun j hj => by interval_cases j <;> rfl) (by decide) (by decide)

end ServiceManagement
